import Mathlib

/-!
Verification of the wcam device-request and lifecycle coordination layer.

This file gives a shallow embedding of the core of the library:
* the `Resolution` / `Info` value types and the sort-and-deduplicate
  post-processing of enumeration results (`grab_all_infos`, Manager.cpp);
* the registry state machine (`open_or_get_webcam`, `update`,
  `request_a_restart_of_the_capture_if_it_exists`, `default_resolution`,
  Manager.cpp) with the shared/weak handle semantics made explicit;
* the resolution preference store (ResolutionsManager.cpp);
* the two platform enumeration backends (`grab_all_infos_impl` in
  internal/wcam_windows.cpp, `get_devices_info` in wcam_windows.cpp), with
  hardware outcomes abstracted into per-device descriptors.

Theorems about the claims follow the definitions.
-/

namespace Wcam

/-- Modelled from the spec: `DeviceId` is an opaque, stable identity derived
from backend-provided data (a device path, or the friendly name as fallback);
the core only requires value equality (spec §3).  The header defining it is not
part of the sources at hand. -/
abbrev DeviceId := String

/-- Modelled from the spec: `make_device_id` wraps a backend-provided string
into a `DeviceId` (used by `find_webcam_id` in internal/wcam_windows.cpp). -/
def make_device_id (s : String) : DeviceId := s

/-- Modelled from the spec: `Resolution` is an immutable pair
(width, height); `pixels = width × height`; equality is componentwise
(spec §3, invariant I3 speaks of (pixels, width, height) triples).
The header defining it is not part of the sources at hand. -/
structure Resolution where
  width : Nat
  height : Nat
deriving DecidableEq

/-- `Resolution::pixels_count()`: width × height (spec §3). -/
def Resolution.pixels_count (r : Resolution) : Nat := r.width * r.height

/-- `Info` snapshot entry: device name, id, resolution list
(struct used in Manager.cpp and both backend files). -/
structure Info where
  name : String
  id : DeviceId
  resolutions : List Resolution
deriving DecidableEq

/-- The comparator passed to `std::sort` in `grab_all_infos` (Manager.cpp,
lines 46-49): `res_a` sorts before `res_b` iff it has strictly more pixels,
or the same pixel count and a strictly larger width. -/
def resLess (a b : Resolution) : Prop :=
  b.pixels_count < a.pixels_count
    ∨ (a.pixels_count = b.pixels_count ∧ b.width < a.width)

instance (a b : Resolution) : Decidable (resLess a b) := by
  unfold resLess; exact inferInstance

/-- The total preorder induced by the comparator: `a` may appear no later
than `b` in the sorted list iff `b` does not sort strictly before `a`. -/
def resLE (a b : Resolution) : Prop := ¬ resLess b a

instance (a b : Resolution) : Decidable (resLE a b) := by
  unfold resLE; exact inferInstance

theorem resLE_iff (a b : Resolution) :
    resLE a b ↔
      (b.pixels_count < a.pixels_count
        ∨ (b.pixels_count = a.pixels_count ∧ b.width ≤ a.width)) := by
  unfold resLE resLess
  constructor <;> intro h <;> omega

instance : IsTotal Resolution resLE := by
  constructor
  intro a b
  rw [resLE_iff, resLE_iff]
  omega

instance : IsTrans Resolution resLE := by
  constructor
  intro a b c hab hbc
  rw [resLE_iff] at *
  omega

instance : IsTrans Resolution resLess := by
  constructor
  intro a b c hab hbc
  unfold resLess at *
  omega

/-- `std::unique` on a list whose first element has already been kept:
drop each element equal to the most recently kept one
(`resolutions.erase(std::unique(...), end)` in Manager.cpp, line 50). -/
def dedupAdjAux (prev : Resolution) : List Resolution → List Resolution
  | [] => []
  | b :: t => if b = prev then dedupAdjAux prev t else b :: dedupAdjAux b t

/-- `std::unique` + `erase`: keep the first element of every run of adjacent
equal resolutions. -/
def dedupAdj : List Resolution → List Resolution
  | [] => []
  | a :: t => a :: dedupAdjAux a t

/-- `grab_all_infos` (Manager.cpp, lines 40-53): take the backend enumeration
result and, per device, sort the resolutions with the
pixels-desc-then-width-desc comparator and remove adjacent duplicates.
`std::sort`'s order on elements the comparator considers equivalent is
unspecified; it is refined here by insertion sort. -/
def grab_all_infos (backend : List Info) : List Info :=
  backend.map fun info =>
    { info with resolutions := dedupAdj (info.resolutions.insertionSort resLE) }

/-! ### Association lists

`std::unordered_map` is embedded as an association list: `assocFind` is
`find`, `assocInsert` is `operator[]` assignment (replace the value if the
key is present, append otherwise). -/

/-- `unordered_map::find`: the value stored for `k`, if any. -/
def assocFind {α : Type} (l : List (String × α)) (k : String) : Option α :=
  match l with
  | [] => none
  | (k', v) :: t => if k' = k then some v else assocFind t k

/-- `unordered_map::operator[] = v`: replace the value for `k`, or append a
fresh entry. -/
def assocInsert {α : Type} (l : List (String × α)) (k : String) (v : α) :
    List (String × α) :=
  match l with
  | [] => [(k, v)]
  | (k', v') :: t => if k' = k then (k, v) :: t else (k', v') :: assocInsert t k v

/-! ### Capture session state -/

/-- The typed capture errors (spec §7: Unplugged, AlreadyInUse, Other). -/
inductive CaptureError
  | webcamUnplugged
  | webcamAlreadyUsedInAnotherApplication
  | other (message : String)
deriving DecidableEq

/-- The `maybe_capture()` variant held by a `WebcamRequest`:
`CaptureNotInitYet`, a live `Capture` (with its negotiated resolution), or a
capture error (spec §3, used throughout Manager.cpp). -/
inductive MaybeCapture
  | captureNotInitYet
  | capture (negotiated : Resolution)
  | captureError (e : CaptureError)
deriving DecidableEq

/-- Modelled from the spec: one entry of the coordination map
`_current_requests` together with the `shared_ptr`/`weak_ptr` bookkeeping of
the `WebcamRequest` it points to (WebcamRequest.hpp and SharedWebcam are not
part of the sources at hand).  `handleCount` is the number of outstanding
`SharedWebcam` handles: the registry's weak reference resolves iff
`handleCount ≠ 0`.  `sessionId` tags the underlying `WebcamRequest` object so
that distinct session objects can be told apart. -/
structure SessionEntry where
  sessionId : Nat
  handleCount : Nat
  capture : MaybeCapture
deriving DecidableEq

/-- The `Manager` state: the cached device snapshot `_infos` and the
coordination map `_current_requests` (Manager.hpp is not part of the sources
at hand; the fields are those used by Manager.cpp).  `nextSessionId` is the
ghost supply of fresh session tags. -/
structure ManagerState where
  infos : List Info
  requests : List (String × SessionEntry)
  nextSessionId : Nat
deriving DecidableEq

/-- The state of a freshly constructed `Manager`: empty snapshot, empty
coordination map. -/
def initState : ManagerState := { infos := [], requests := [], nextSessionId := 0 }

/-- `Manager::is_plugged_in` (Manager.cpp, lines 103-109): membership test
against the snapshot. -/
def is_plugged_in (infos : List Info) (id : DeviceId) : Bool :=
  infos.any fun info => info.id == id

/-- `Manager::default_resolution` (Manager.cpp, lines 92-101): the first
resolution of the first snapshot entry with this id, or the 1×1 sentinel if
the id is unknown or its resolution list is empty. -/
def default_resolution (infos : List Info) (id : DeviceId) : Resolution :=
  match infos.find? (fun info => info.id == id) with
  | none => ⟨1, 1⟩
  | some info =>
    match info.resolutions with
    | [] => ⟨1, 1⟩
    | r :: _ => r

/-- `ResolutionsManager::selected_resolution` (ResolutionsManager.cpp, lines
6-12): the stored preference if present, else the manager's default. -/
def selected_resolution (store : List (String × Resolution)) (infos : List Info)
    (id : DeviceId) : Resolution :=
  match assocFind store id with
  | some r => r
  | none => default_resolution infos id

/-- `Manager::open_or_get_webcam` (Manager.cpp, lines 62-76): if the map has
an entry for `id` whose weak reference still resolves (a capture is still
alive), share it; otherwise create a fresh `WebcamRequest` and store a weak
reference to it.  Returns the new state and the session tag the returned
`SharedWebcam` points to. -/
def open_or_get_webcam (s : ManagerState) (id : DeviceId) : ManagerState × Nat :=
  match assocFind s.requests id with
  | some e =>
    if e.handleCount ≠ 0 then
      ({ s with requests :=
          assocInsert s.requests id { e with handleCount := e.handleCount + 1 } },
        e.sessionId)
    else
      ({ s with
          requests := assocInsert s.requests id
            ⟨s.nextSessionId, 1, .captureNotInitYet⟩,
          nextSessionId := s.nextSessionId + 1 },
        s.nextSessionId)
  | none =>
      ({ s with
          requests := assocInsert s.requests id
            ⟨s.nextSessionId, 1, .captureNotInitYet⟩,
          nextSessionId := s.nextSessionId + 1 },
        s.nextSessionId)

/-- Modelled from the spec: dropping one `SharedWebcam` handle (spec §4.3:
the session is destroyed when the last clone is dropped; the registry keeps
only the non-resolving weak entry). -/
def release_handle (s : ManagerState) (id : DeviceId) : ManagerState :=
  match assocFind s.requests id with
  | none => s
  | some e =>
    { s with requests :=
        assocInsert s.requests id { e with handleCount := e.handleCount - 1 } }

/-- `Manager::request_a_restart_of_the_capture_if_it_exists` (Manager.cpp,
lines 79-90), instrumented with the number of restarts it performs: if the
map has a live entry for `id`, reset its capture to `CaptureNotInitYet`
(count 1); otherwise do nothing (count 0). -/
def requestRestartCounted (s : ManagerState) (id : DeviceId) : ManagerState × Nat :=
  match assocFind s.requests id with
  | none => (s, 0)
  | some e =>
    if e.handleCount = 0 then (s, 0)
    else
      ({ s with requests :=
          assocInsert s.requests id { e with capture := .captureNotInitYet } }, 1)

/-- `Manager::request_a_restart_of_the_capture_if_it_exists` (Manager.cpp,
lines 79-90). -/
def request_a_restart_of_the_capture_if_it_exists (s : ManagerState)
    (id : DeviceId) : ManagerState :=
  (requestRestartCounted s id).1

/-- `ResolutionsManager::set_selected_resolution` (ResolutionsManager.cpp,
lines 14-24): no-op if the stored value already equals `r`; otherwise store
`r` and ask the manager to restart the capture if a live one exists.
Returns the new store, the new manager state, and the number of restarts
performed. -/
def set_selected_resolution (store : List (String × Resolution))
    (s : ManagerState) (id : DeviceId) (r : Resolution) :
    List (String × Resolution) × ManagerState × Nat :=
  match assocFind store id with
  | some r0 =>
    if r0 = r then (store, s, 0)
    else
      let p := requestRestartCounted s id
      (assocInsert store id r, p.1, p.2)
  | none =>
      let p := requestRestartCounted s id
      (assocInsert store id r, p.1, p.2)

/-- One entry's servicing in `Manager::update` (Manager.cpp, lines 127-148):
skip entries whose weak reference no longer resolves; mark absent devices
`Error_WebcamUnplugged`; leave valid captures alone; otherwise attempt to
(re)create the capture at the selected resolution.  `oracle` abstracts the
`Capture` constructor: success yields the negotiated resolution, failure
throws a typed `CaptureException`. -/
def stepRequest (infos : List Info) (store : List (String × Resolution))
    (oracle : DeviceId → Resolution → Except CaptureError Resolution)
    (id : DeviceId) (e : SessionEntry) : SessionEntry :=
  if e.handleCount = 0 then e
  else if is_plugged_in infos id = false then
    { e with capture := .captureError .webcamUnplugged }
  else
    match e.capture with
    | .capture _ => e
    | _ =>
      match oracle id (selected_resolution store infos id) with
      | .ok r => { e with capture := .capture r }
      | .error err => { e with capture := .captureError err }

/-- `Manager::update` (Manager.cpp, lines 112-150): refresh the snapshot from
the backend enumeration (sorted and deduplicated by `grab_all_infos`), then
service every entry of the coordination map against the fresh snapshot. -/
def update (backend : List Info)
    (oracle : DeviceId → Resolution → Except CaptureError Resolution)
    (store : List (String × Resolution)) (s : ManagerState) : ManagerState :=
  let infos := grab_all_infos backend
  { infos := infos,
    requests := s.requests.map fun p => (p.1, stepRequest infos store oracle p.1 p.2),
    nextSessionId := s.nextSessionId }

/-! ### Platform enumeration backends

Hardware outcomes are abstracted into one descriptor per moniker returned by
`IEnumMoniker`: whether `BindToStorage` succeeds, whether the FriendlyName
property reads successfully, whether a DevicePath property exists, whether
`BindToObject` (and the capability query behind it) succeeds, and the
resolution list the hardware reports. -/

/-- One device as seen by the DirectShow enumerator. -/
structure RawDevice where
  bindStorageOk : Bool
  friendlyNameOk : Bool
  name : String
  hasDevicePath : Bool
  devicePath : String
  bindObjectOk : Bool
  hwResolutions : List Resolution
deriving DecidableEq

/-- The per-thread cache mapping a webcam name to its previously computed
resolution list (`resolutions_cache` in both backend files). -/
abbrev ResCache := List (String × List Resolution)

/-- `find_webcam_name` (internal/wcam_windows.cpp, lines 138-157): throws if
`BindToStorage` fails; falls back to "Unnamed webcam" when the FriendlyName
property is missing. -/
def find_webcam_name (d : RawDevice) : Except String String :=
  if d.bindStorageOk = false then .error "BindToStorage failed"
  else if d.friendlyNameOk then .ok d.name
  else .ok "Unnamed webcam"

/-- `find_webcam_id` (internal/wcam_windows.cpp, lines 159-174): throws if
`BindToStorage` fails; uses the DevicePath property, falling back to the
webcam name when it is missing. -/
def find_webcam_id (d : RawDevice) : Except String DeviceId :=
  if d.bindStorageOk = false then .error "BindToStorage failed"
  else if d.hasDevicePath then .ok (make_device_id d.devicePath)
  else
    match find_webcam_name d with
    | .ok nm => .ok (make_device_id nm)
    | .error e => .error e

/-- `grab_all_infos_impl` (internal/wcam_windows.cpp, lines 505-554): walk
the monikers; per device, read the name (throwing on `BindToStorage`
failure), consult the per-name resolution cache and query the hardware on a
miss (throwing on `BindToObject` failure), and report the device only when
its resolution list is non-empty.  An exception aborts the whole
enumeration — there is no per-device catch. -/
def grab_all_infos_impl (devs : List RawDevice) (cache : ResCache) :
    Except String (ResCache × List Info) :=
  match devs with
  | [] => .ok (cache, [])
  | d :: rest =>
    match find_webcam_name d with
    | .error e => .error e
    | .ok nm =>
      match
        (match assocFind cache nm with
          | some rs => Except.ok (cache, rs)
          | none =>
            if d.bindObjectOk then
              Except.ok (assocInsert cache nm d.hwResolutions, d.hwResolutions)
            else Except.error "BindToObject failed") with
      | .error e => .error e
      | .ok (cache2, ress) =>
        match
          (if ress.isEmpty then Except.ok []
            else
              match find_webcam_id d with
              | .ok id => Except.ok [Info.mk nm id ress]
              | .error e => Except.error e) with
        | .error e => .error e
        | .ok headInfos =>
          match grab_all_infos_impl rest cache2 with
          | .error e => .error e
          | .ok (cache3, tailInfos) => .ok (cache3, headInfos ++ tailInfos)

/-- `get_devices_info` (wcam_windows.cpp, lines 286-343): same walk, but a
`BindToStorage` or FriendlyName failure merely skips the device, and a
`BindToObject` failure caches an empty resolution list instead of
throwing. -/
def get_devices_info (devs : List RawDevice) (cache : ResCache) :
    ResCache × List Info :=
  match devs with
  | [] => (cache, [])
  | d :: rest =>
    if d.bindStorageOk = false then get_devices_info rest cache
    else if d.friendlyNameOk = false then get_devices_info rest cache
    else
      match assocFind cache d.name with
      | some rs =>
        if rs.isEmpty then get_devices_info rest cache
        else ((get_devices_info rest cache).1,
          Info.mk d.name (make_device_id d.name) rs
            :: (get_devices_info rest cache).2)
      | none =>
        if d.bindObjectOk then
          (if d.hwResolutions.isEmpty then
            get_devices_info rest (assocInsert cache d.name d.hwResolutions)
          else
            ((get_devices_info rest (assocInsert cache d.name d.hwResolutions)).1,
              Info.mk d.name (make_device_id d.name) d.hwResolutions
                :: (get_devices_info rest (assocInsert cache d.name d.hwResolutions)).2))
        else get_devices_info rest (assocInsert cache d.name [])

/-- `Manager::update` with the real (exception-throwing) enumeration backend
of internal/wcam_windows.cpp plugged in: `grab_all_infos` calls
`grab_all_infos_impl`, and an exception thrown there propagates out of
`update` unimpeded (nothing in `Manager::update` or `Manager::thread_job`
catches it). -/
def updateE (devs : List RawDevice) (cache : ResCache)
    (oracle : DeviceId → Resolution → Except CaptureError Resolution)
    (store : List (String × Resolution)) (s : ManagerState) :
    Except String (ResCache × ManagerState) :=
  match grab_all_infos_impl devs cache with
  | .error e => .error e
  | .ok (cache2, backendInfos) => .ok (cache2, update backendInfos oracle store s)

/-! ### Well-formedness, observation predicates and the step relation -/

/-- Well-formedness of a manager state: the coordination map has no duplicate
keys (an `unordered_map` cannot), and every stored session tag was drawn from
the supply. -/
def WF (s : ManagerState) : Prop :=
  (s.requests.map Prod.fst).Nodup
    ∧ ∀ p ∈ s.requests, p.2.sessionId < s.nextSessionId

/-- The number of live capture sessions the registry holds for a given
device id: entries for that key whose weak reference still resolves. -/
def liveSessionCount (s : ManagerState) (id : DeviceId) : Nat :=
  (s.requests.filter fun p => p.1 == id && p.2.handleCount != 0).length

/-- The session is `Active` only for device ids present in the latest
snapshot (spec invariant I2, and the second half of claim C4): every entry of
the coordination map whose weak reference resolves and whose state is a live
`Capture` belongs to a device listed in `infos`. -/
def ActiveImpliesPlugged (s : ManagerState) : Prop :=
  ∀ id e, assocFind s.requests id = some e → e.handleCount ≠ 0 →
    ∀ r, e.capture = .capture r → is_plugged_in s.infos id = true

/-- One step of the system: any caller-facing operation, or one poll cycle.
`setRes` covers `ResolutionsManager::set_selected_resolution`, whose only
effect on the manager goes through the restart request. -/
inductive ManagerStep : ManagerState → ManagerState → Prop
  | acquire (id : DeviceId) (s : ManagerState) :
      ManagerStep s (open_or_get_webcam s id).1
  | release (id : DeviceId) (s : ManagerState) :
      ManagerStep s (release_handle s id)
  | restart (id : DeviceId) (s : ManagerState) :
      ManagerStep s (request_a_restart_of_the_capture_if_it_exists s id)
  | setRes (store : List (String × Resolution)) (id : DeviceId) (r : Resolution)
      (s : ManagerState) :
      ManagerStep s (set_selected_resolution store s id r).2.1
  | poll (backend : List Info)
      (oracle : DeviceId → Resolution → Except CaptureError Resolution)
      (store : List (String × Resolution)) (s : ManagerState) :
      ManagerStep s (update backend oracle store s)

/-- States reachable from a freshly constructed `Manager`. -/
def Reachable (s : ManagerState) : Prop :=
  Relation.ReflTransGen ManagerStep initState s

/-! ## Lemmas about sorting and deduplication (claim C3) -/

theorem mem_dedupAdjAux {x prev : Resolution} :
    ∀ {t : List Resolution}, x ∈ dedupAdjAux prev t → x ∈ t := by
  intro t
  induction t generalizing prev with
  | nil => intro h; simp [dedupAdjAux] at h
  | cons b t ih =>
    intro h
    unfold dedupAdjAux at h
    by_cases hb : b = prev
    · simp only [hb, if_pos rfl] at h
      exact List.mem_cons_of_mem _ (ih h)
    · simp only [if_neg hb] at h
      rcases List.mem_cons.mp h with h | h
      · exact h ▸ List.mem_cons_self _ _
      · exact List.mem_cons_of_mem _ (ih h)

theorem mem_dedupAdj {x : Resolution} {l : List Resolution} :
    x ∈ dedupAdj l → x ∈ l := by
  cases l with
  | nil => intro h; simp [dedupAdj] at h
  | cons a t =>
    intro h
    rcases List.mem_cons.mp h with h | h
    · exact h ▸ List.mem_cons_self _ _
    · exact List.mem_cons_of_mem _ (mem_dedupAdjAux h)

theorem dedupAdjAux_chain {prev : Resolution} :
    ∀ {t : List Resolution}, (prev :: t).Pairwise resLE →
      List.Chain' (fun a b => resLE a b ∧ a ≠ b) (prev :: dedupAdjAux prev t) := by
  intro t
  induction t generalizing prev with
  | nil => intro _; simp [dedupAdjAux]
  | cons b t ih =>
    intro h
    rcases List.pairwise_cons.mp h with ⟨hprev, hbt⟩
    unfold dedupAdjAux
    by_cases hb : b = prev
    · simp only [hb, if_pos rfl]
      apply ih
      subst hb
      exact List.pairwise_cons.mpr ⟨fun x hx => hprev x (List.mem_cons_of_mem _ hx),
        (List.pairwise_cons.mp hbt).2⟩
    · simp only [if_neg hb]
      rw [List.chain'_cons]
      exact ⟨⟨hprev b (List.mem_cons_self _ _), fun hpb => hb hpb.symm⟩, ih hbt⟩

theorem dedupAdj_chain {l : List Resolution} (h : l.Pairwise resLE) :
    List.Chain' (fun a b => resLE a b ∧ a ≠ b) (dedupAdj l) := by
  cases l with
  | nil => simp [dedupAdj]
  | cons a t => exact dedupAdjAux_chain h

theorem chain_strengthen {R S : Resolution → Resolution → Prop}
    {P : Resolution → Prop} :
    ∀ {l : List Resolution}, (∀ x ∈ l, P x) →
      (∀ a b, P a → P b → R a b → S a b) →
      List.Chain' R l → List.Chain' S l := by
  intro l
  induction l with
  | nil => intro _ _ _; exact List.chain'_nil
  | cons a t ih =>
    intro hP himp hc
    cases t with
    | nil => exact List.chain'_singleton a
    | cons b t' =>
      rw [List.chain'_cons] at hc ⊢
      refine ⟨himp a b (hP a (by simp)) (hP b (by simp)) hc.1, ?_⟩
      exact ih (fun x hx => hP x (List.mem_cons_of_mem _ hx)) himp hc.2

theorem resLess_of_resLE_ne {a b : Resolution} (ha : 0 < a.width)
    (hle : resLE a b) (hne : a ≠ b) : resLess a b := by
  rw [resLE_iff] at hle
  unfold resLess
  rcases hle with h | ⟨hpix, hw⟩
  · exact Or.inl h
  · rcases Nat.lt_or_ge b.width a.width with hlt | hge
    · exact Or.inr ⟨hpix.symm, hlt⟩
    · have hweq : a.width = b.width := Nat.le_antisymm hge hw
      exfalso
      apply hne
      have hpx : a.width * a.height = a.width * b.height := by
        have h2 := hpix
        unfold Resolution.pixels_count at h2
        rw [hweq] at h2 ⊢
        omega
      have hh : a.height = b.height := Nat.eq_of_mul_eq_mul_left ha hpx
      cases a; cases b
      simp_all

theorem resLess_keys_ne {a b : Resolution} (h : resLess a b) :
    a.pixels_count ≠ b.pixels_count ∨ a.width ≠ b.width := by
  unfold resLess at h
  omega

/-- C3 (counterexample): the claim fails as stated.  Two distinct degenerate
resolutions of width 0 — (0,3) and (0,7) — have the same pixel count (0) and
the same width (0); the comparator considers them equivalent and `std::unique`
(which compares full values) keeps both, so the produced `Info.resolutions`
contains two entries with the same (pixels, width) pair and is not strictly
sorted. -/
theorem C3_counterexample :
    grab_all_infos [⟨"Cam-A", "idA", [⟨0, 3⟩, ⟨0, 7⟩]⟩]
      = [⟨"Cam-A", "idA", [⟨0, 3⟩, ⟨0, 7⟩]⟩]
    ∧ Resolution.pixels_count ⟨0, 3⟩ = Resolution.pixels_count ⟨0, 7⟩
    ∧ Resolution.width ⟨0, 3⟩ = Resolution.width ⟨0, 7⟩
    ∧ (⟨0, 3⟩ : Resolution) ≠ ⟨0, 7⟩
    ∧ ¬ resLess ⟨0, 3⟩ ⟨0, 7⟩ := by
  decide

/-- C3 (amended): for every backend resolution list in which each resolution
has a positive width, every `Info.resolutions` list produced by
`grab_all_infos` is sorted strictly by pixel count descending with ties
broken by width descending, and no two of its entries share the same
(pixels, width) pair.  (The amendment adds the positive-width hypothesis the
counterexample forces: width-0 resolutions with equal pixel count escape
`std::unique`, which compares full values.) -/
theorem C3_resolutions_sorted_dedup (backend : List Info)
    (hpos : ∀ info ∈ backend, ∀ r ∈ info.resolutions, 0 < r.width) :
    ∀ info ∈ grab_all_infos backend,
      info.resolutions.Pairwise fun a b =>
        resLess a b ∧ (a.pixels_count ≠ b.pixels_count ∨ a.width ≠ b.width) := by
  intro info hinfo
  unfold grab_all_infos at hinfo
  rcases List.mem_map.mp hinfo with ⟨info0, hmem0, rfl⟩
  simp only
  have hsorted : (info0.resolutions.insertionSort resLE).Pairwise resLE :=
    List.sorted_insertionSort resLE info0.resolutions
  have hchain := dedupAdj_chain hsorted
  have hmemall : ∀ x ∈ dedupAdj (info0.resolutions.insertionSort resLE), 0 < x.width := by
    intro x hx
    exact hpos info0 hmem0 x ((List.mem_insertionSort resLE).mp (mem_dedupAdj hx))
  have hless : List.Chain' resLess (dedupAdj (info0.resolutions.insertionSort resLE)) :=
    chain_strengthen hmemall
      (fun a b ha _ h => resLess_of_resLE_ne ha h.1 h.2) hchain
  have hpair : (dedupAdj (info0.resolutions.insertionSort resLE)).Pairwise resLess :=
    List.chain'_iff_pairwise.mp hless
  exact hpair.imp fun h => ⟨h, resLess_keys_ne h⟩

/-- C3 (witness): on the spec's own scenario — device reporting
[(640,480),(1280,720),(1280,720)], all widths positive — the amended theorem
applies and the produced list is [(1280,720),(640,480)]. -/
theorem C3_witness :
    (∀ info ∈ ([⟨"Cam-A", "idA", [⟨640, 480⟩, ⟨1280, 720⟩, ⟨1280, 720⟩]⟩] : List Info),
        ∀ r ∈ info.resolutions, 0 < r.width)
    ∧ (∀ info ∈ grab_all_infos [⟨"Cam-A", "idA", [⟨640, 480⟩, ⟨1280, 720⟩, ⟨1280, 720⟩]⟩],
        info.resolutions.Pairwise fun a b =>
          resLess a b ∧ (a.pixels_count ≠ b.pixels_count ∨ a.width ≠ b.width))
    ∧ grab_all_infos [⟨"Cam-A", "idA", [⟨640, 480⟩, ⟨1280, 720⟩, ⟨1280, 720⟩]⟩]
        = [⟨"Cam-A", "idA", [⟨1280, 720⟩, ⟨640, 480⟩]⟩] :=
  ⟨by decide,
    C3_resolutions_sorted_dedup
      [⟨"Cam-A", "idA", [⟨640, 480⟩, ⟨1280, 720⟩, ⟨1280, 720⟩]⟩] (by decide),
    by decide⟩

/-! ## Lemmas about the association-list embedding of `unordered_map` -/

theorem assocFind_insert_self {α : Type} (l : List (String × α)) (k : String) (v : α) :
    assocFind (assocInsert l k v) k = some v := by
  induction l with
  | nil => simp [assocInsert, assocFind]
  | cons p t ih =>
    obtain ⟨k', v'⟩ := p
    unfold assocInsert
    by_cases hk : k' = k
    · simp [hk, assocFind]
    · simp only [if_neg hk]
      unfold assocFind
      simp [hk, ih]

theorem assocFind_insert_ne {α : Type} (l : List (String × α)) (k : String) (v : α)
    (k' : String) (h : k ≠ k') :
    assocFind (assocInsert l k v) k' = assocFind l k' := by
  induction l with
  | nil => simp [assocInsert, assocFind, h]
  | cons p t ih =>
    obtain ⟨k0, v0⟩ := p
    unfold assocInsert
    by_cases hk : k0 = k
    · simp only [if_pos hk]
      unfold assocFind
      simp [h, hk]
    · simp only [if_neg hk]
      unfold assocFind
      by_cases hk' : k0 = k'
      · simp [hk']
      · simp [hk', ih]

theorem assocFind_mem {α : Type} {l : List (String × α)} {k : String} {v : α}
    (h : assocFind l k = some v) : (k, v) ∈ l := by
  induction l with
  | nil => simp [assocFind] at h
  | cons p t ih =>
    obtain ⟨k0, v0⟩ := p
    unfold assocFind at h
    by_cases hk : k0 = k
    · simp only [if_pos hk] at h
      cases h
      subst hk
      exact List.mem_cons_self _ _
    · simp only [if_neg hk] at h
      exact List.mem_cons_of_mem _ (ih h)

theorem mem_assocInsert {α : Type} {l : List (String × α)} {k : String} {v : α}
    {p : String × α} (h : p ∈ assocInsert l k v) : p = (k, v) ∨ p ∈ l := by
  induction l with
  | nil => simpa [assocInsert] using h
  | cons q t ih =>
    obtain ⟨k0, v0⟩ := q
    unfold assocInsert at h
    by_cases hk : k0 = k
    · simp only [if_pos hk] at h
      rcases List.mem_cons.mp h with h | h
      · exact Or.inl h
      · exact Or.inr (List.mem_cons_of_mem _ h)
    · simp only [if_neg hk] at h
      rcases List.mem_cons.mp h with h | h
      · exact Or.inr (h ▸ List.mem_cons_self _ _)
      · rcases ih h with h | h
        · exact Or.inl h
        · exact Or.inr (List.mem_cons_of_mem _ h)

theorem mem_keys_assocInsert {α : Type} {l : List (String × α)} {k x : String} {v : α}
    (h : x ∈ (assocInsert l k v).map Prod.fst) : x = k ∨ x ∈ l.map Prod.fst := by
  rcases List.mem_map.mp h with ⟨p, hp, rfl⟩
  rcases mem_assocInsert hp with h | h
  · exact Or.inl (by rw [h])
  · exact Or.inr (List.mem_map_of_mem _ h)

theorem keys_nodup_assocInsert {α : Type} {l : List (String × α)} {k : String} {v : α}
    (h : (l.map Prod.fst).Nodup) : ((assocInsert l k v).map Prod.fst).Nodup := by
  induction l with
  | nil => simp [assocInsert]
  | cons p t ih =>
    obtain ⟨k0, v0⟩ := p
    rw [List.map_cons, List.nodup_cons] at h
    unfold assocInsert
    by_cases hk : k0 = k
    · subst hk
      simpa [List.nodup_cons] using h
    · simp only [if_neg hk, List.map_cons, List.nodup_cons]
      refine ⟨fun hmem => ?_, ih h.2⟩
      rcases mem_keys_assocInsert hmem with h' | h'
      · exact hk h'
      · exact h.1 h'

theorem assocFind_map {α β : Type} (l : List (String × α)) (f : String → α → β)
    (k : String) :
    assocFind (l.map fun p => (p.1, f p.1 p.2)) k = (assocFind l k).map (f k) := by
  induction l with
  | nil => simp [assocFind]
  | cons p t ih =>
    obtain ⟨k0, v0⟩ := p
    simp only [List.map_cons]
    unfold assocFind
    by_cases hk : k0 = k
    · subst hk
      simp
    · simp [hk, ih]

theorem filter_key_nil {α : Type} {t : List (String × α)} {k : String}
    (q : String × α → Bool) (hk : k ∉ t.map Prod.fst) :
    t.filter (fun p => p.1 == k && q p) = [] := by
  refine List.filter_eq_nil_iff.mpr ?_
  intro p hp hq
  rw [Bool.and_eq_true, beq_iff_eq] at hq
  exact hk (hq.1 ▸ List.mem_map_of_mem _ hp)

theorem length_filter_key_le_one {α : Type} {l : List (String × α)}
    (h : (l.map Prod.fst).Nodup) (k : String) (q : String × α → Bool) :
    (l.filter fun p => p.1 == k && q p).length ≤ 1 := by
  induction l with
  | nil => simp
  | cons p t ih =>
    obtain ⟨k0, v0⟩ := p
    rw [List.map_cons, List.nodup_cons] at h
    rw [List.filter_cons]
    by_cases hcond : ((k0, v0).1 == k && q (k0, v0)) = true
    · rw [if_pos hcond]
      have hk0 : k0 = k := by
        rw [Bool.and_eq_true, beq_iff_eq] at hcond
        exact hcond.1
      rw [filter_key_nil q (hk0 ▸ h.1)]
      simp
    · rw [if_neg hcond]
      exact ih h.2

/-! ## Lemmas about `open_or_get_webcam` (claims C1, C8) -/

theorem open_or_get_spec (s : ManagerState) (id : DeviceId) :
    ∃ eNew, assocFind (open_or_get_webcam s id).1.requests id = some eNew
      ∧ eNew.handleCount ≠ 0
      ∧ eNew.sessionId = (open_or_get_webcam s id).2 := by
  unfold open_or_get_webcam
  cases hfind : assocFind s.requests id with
  | none =>
    exact ⟨⟨s.nextSessionId, 1, .captureNotInitYet⟩,
      assocFind_insert_self _ _ _, by simp, rfl⟩
  | some e =>
    by_cases hc : e.handleCount ≠ 0
    · simp only [if_pos hc]
      exact ⟨{ e with handleCount := e.handleCount + 1 },
        assocFind_insert_self _ _ _, by simp, rfl⟩
    · simp only [if_neg hc]
      exact ⟨⟨s.nextSessionId, 1, .captureNotInitYet⟩,
        assocFind_insert_self _ _ _, by simp, rfl⟩

theorem open_or_get_keys_nodup (s : ManagerState) (id : DeviceId)
    (h : (s.requests.map Prod.fst).Nodup) :
    ((open_or_get_webcam s id).1.requests.map Prod.fst).Nodup := by
  unfold open_or_get_webcam
  cases hfind : assocFind s.requests id with
  | none => exact keys_nodup_assocInsert h
  | some e =>
    by_cases hc : e.handleCount ≠ 0
    · simp only [if_pos hc]
      exact keys_nodup_assocInsert h
    · simp only [if_neg hc]
      exact keys_nodup_assocInsert h

theorem open_or_get_live (s : ManagerState) (id : DeviceId) (e : SessionEntry)
    (hfind : assocFind s.requests id = some e) (hlive : e.handleCount ≠ 0) :
    open_or_get_webcam s id
      = ({ s with requests :=
            assocInsert s.requests id { e with handleCount := e.handleCount + 1 } },
          e.sessionId) := by
  unfold open_or_get_webcam
  rw [hfind]
  simp [hlive]

/-- C1: acquiring a device twice while the first session is alive hands back
the very same underlying session — the second `open_or_get_webcam` returns
the same session tag, creates no new session (the fresh-tag supply is
untouched) — and afterwards at most one live `CaptureSession` exists per
`DeviceId`. -/
theorem C1_acquire_shares_single_session (s : ManagerState) (id : DeviceId)
    (hwf : WF s) :
    (open_or_get_webcam (open_or_get_webcam s id).1 id).2
        = (open_or_get_webcam s id).2
    ∧ (open_or_get_webcam (open_or_get_webcam s id).1 id).1.nextSessionId
        = (open_or_get_webcam s id).1.nextSessionId
    ∧ ∀ d, liveSessionCount (open_or_get_webcam (open_or_get_webcam s id).1 id).1 d ≤ 1 := by
  obtain ⟨e1, hfind1, hlive1, hsid1⟩ := open_or_get_spec s id
  have h2 := open_or_get_live (open_or_get_webcam s id).1 id e1 hfind1 hlive1
  refine ⟨by rw [h2, hsid1], by rw [h2], fun d => ?_⟩
  have hnodup1 := open_or_get_keys_nodup s id hwf.1
  have hnodup2 : ((open_or_get_webcam (open_or_get_webcam s id).1 id).1.requests.map
      Prod.fst).Nodup := open_or_get_keys_nodup _ id hnodup1
  exact length_filter_key_le_one hnodup2 d _

/-- C1 (witness): starting from a fresh manager and acquiring "cam" twice. -/
theorem C1_witness :
    WF initState
    ∧ ((open_or_get_webcam (open_or_get_webcam initState "cam").1 "cam").2
          = (open_or_get_webcam initState "cam").2
        ∧ (open_or_get_webcam (open_or_get_webcam initState "cam").1 "cam").1.nextSessionId
          = (open_or_get_webcam initState "cam").1.nextSessionId
        ∧ ∀ d, liveSessionCount
            (open_or_get_webcam (open_or_get_webcam initState "cam").1 "cam").1 d ≤ 1) :=
  ⟨⟨by simp [initState], by simp [initState]⟩,
    C1_acquire_shares_single_session initState "cam"
      ⟨by simp [initState], by simp [initState]⟩⟩

/-- C8: when the registry entry for a device is stale (its weak reference
no longer resolves because every handle was dropped), a new acquire creates
a fresh session — a new tag drawn from the supply, distinct from the dead
session's tag — in state `CaptureNotInitYet`, rather than returning the dead
session. -/
theorem C8_stale_entry_recreated (s : ManagerState) (id : DeviceId)
    (e : SessionEntry) (hwf : WF s)
    (hfind : assocFind s.requests id = some e) (hdead : e.handleCount = 0) :
    (open_or_get_webcam s id).2 = s.nextSessionId
    ∧ (open_or_get_webcam s id).2 ≠ e.sessionId
    ∧ assocFind (open_or_get_webcam s id).1.requests id
        = some ⟨s.nextSessionId, 1, .captureNotInitYet⟩
    ∧ (open_or_get_webcam s id).1.nextSessionId = s.nextSessionId + 1 := by
  have hlt : e.sessionId < s.nextSessionId := hwf.2 (id, e) (assocFind_mem hfind)
  have heq : open_or_get_webcam s id
      = ({ s with
            requests := assocInsert s.requests id
              ⟨s.nextSessionId, 1, .captureNotInitYet⟩,
            nextSessionId := s.nextSessionId + 1 },
          s.nextSessionId) := by
    unfold open_or_get_webcam
    rw [hfind]
    simp [hdead]
  rw [heq]
  exact ⟨rfl, Nat.ne_of_gt hlt, assocFind_insert_self _ _ _, rfl⟩

/-- C8 (witness): a registry holding one dead entry for "cam" (tag 0, zero
handles); acquiring creates session tag 1. -/
theorem C8_witness :
    (WF ⟨[], [("cam", ⟨0, 0, .captureNotInitYet⟩)], 1⟩
      ∧ assocFind (⟨[], [("cam", ⟨0, 0, .captureNotInitYet⟩)], 1⟩ : ManagerState).requests "cam"
          = some ⟨0, 0, .captureNotInitYet⟩
      ∧ (⟨0, 0, .captureNotInitYet⟩ : SessionEntry).handleCount = 0)
    ∧ ((open_or_get_webcam ⟨[], [("cam", ⟨0, 0, .captureNotInitYet⟩)], 1⟩ "cam").2 = 1
      ∧ (open_or_get_webcam ⟨[], [("cam", ⟨0, 0, .captureNotInitYet⟩)], 1⟩ "cam").2 ≠ 0
      ∧ assocFind (open_or_get_webcam ⟨[], [("cam", ⟨0, 0, .captureNotInitYet⟩)], 1⟩ "cam").1.requests "cam"
          = some ⟨1, 1, .captureNotInitYet⟩
      ∧ (open_or_get_webcam ⟨[], [("cam", ⟨0, 0, .captureNotInitYet⟩)], 1⟩ "cam").1.nextSessionId = 2) :=
  ⟨⟨⟨by simp, by simp⟩, by simp [assocFind], rfl⟩,
    C8_stale_entry_recreated _ "cam" ⟨0, 0, .captureNotInitYet⟩
      ⟨by simp, by simp⟩ (by simp [assocFind]) rfl⟩

/-! ## Claims C6 (default resolution) and C7 (resolution preference) -/

/-- C6: `default_resolution` returns the 1×1 sentinel when the id is absent
from the snapshot or when its (first matching) snapshot entry has an empty
resolution list, and otherwise the first entry of that device's resolution
list. -/
theorem C6_default_resolution (infos : List Info) (id : DeviceId) :
    (is_plugged_in infos id = false → default_resolution infos id = ⟨1, 1⟩)
    ∧ (∀ i, infos.find? (fun info => info.id == id) = some i →
        (i.resolutions = [] → default_resolution infos id = ⟨1, 1⟩)
        ∧ ∀ r t, i.resolutions = r :: t → default_resolution infos id = r) := by
  constructor
  · intro habs
    have hnone : infos.find? (fun info => info.id == id) = none := by
      refine List.find?_eq_none.mpr ?_
      intro x hx hbeq
      have : infos.any (fun info => info.id == id) = true :=
        List.any_eq_true.mpr ⟨x, hx, hbeq⟩
      rw [is_plugged_in] at habs
      rw [habs] at this
      exact Bool.false_ne_true this
    unfold default_resolution
    rw [hnone]
  · intro i hfind
    constructor
    · intro hempty
      unfold default_resolution
      rw [hfind]
      simp [hempty]
    · intro r t hcons
      unfold default_resolution
      rw [hfind]
      simp [hcons]

/-- C6 (witness): a snapshot listing "camA" with best-first resolutions and
"camB" with an empty list; unknown id "camC". -/
theorem C6_witness :
    (is_plugged_in [⟨"A", "camA", [⟨1280, 720⟩, ⟨640, 480⟩]⟩, ⟨"B", "camB", []⟩] "camC" = false
      ∧ default_resolution [⟨"A", "camA", [⟨1280, 720⟩, ⟨640, 480⟩]⟩, ⟨"B", "camB", []⟩] "camC" = ⟨1, 1⟩)
    ∧ (([⟨"A", "camA", [⟨1280, 720⟩, ⟨640, 480⟩]⟩, ⟨"B", "camB", []⟩] : List Info).find?
          (fun info => info.id == "camB") = some ⟨"B", "camB", []⟩
      ∧ default_resolution [⟨"A", "camA", [⟨1280, 720⟩, ⟨640, 480⟩]⟩, ⟨"B", "camB", []⟩] "camB" = ⟨1, 1⟩)
    ∧ (([⟨"A", "camA", [⟨1280, 720⟩, ⟨640, 480⟩]⟩, ⟨"B", "camB", []⟩] : List Info).find?
          (fun info => info.id == "camA") = some ⟨"A", "camA", [⟨1280, 720⟩, ⟨640, 480⟩]⟩
      ∧ default_resolution [⟨"A", "camA", [⟨1280, 720⟩, ⟨640, 480⟩]⟩, ⟨"B", "camB", []⟩] "camA" = ⟨1280, 720⟩) :=
  ⟨⟨by decide,
      (C6_default_resolution [⟨"A", "camA", [⟨1280, 720⟩, ⟨640, 480⟩]⟩, ⟨"B", "camB", []⟩] "camC").1
        (by decide)⟩,
    ⟨by decide,
      ((C6_default_resolution [⟨"A", "camA", [⟨1280, 720⟩, ⟨640, 480⟩]⟩, ⟨"B", "camB", []⟩] "camB").2
          ⟨"B", "camB", []⟩ (by decide)).1 rfl⟩,
    ⟨by decide,
      ((C6_default_resolution [⟨"A", "camA", [⟨1280, 720⟩, ⟨640, 480⟩]⟩, ⟨"B", "camB", []⟩] "camA").2
          ⟨"A", "camA", [⟨1280, 720⟩, ⟨640, 480⟩]⟩ (by decide)).2 ⟨1280, 720⟩ [⟨640, 480⟩] rfl⟩⟩

/-- C7: setting a resolution equal to the stored preference changes nothing
and performs no restart; setting a different (or first) value stores it and
performs exactly one restart when a live session exists for the device
(resetting its capture to `CaptureNotInitYet`), zero restarts when none
does. -/
theorem C7_set_resolution (store : List (String × Resolution)) (s : ManagerState)
    (id : DeviceId) (r : Resolution) :
    (assocFind store id = some r →
        set_selected_resolution store s id r = (store, s, 0))
    ∧ (assocFind store id ≠ some r →
        (set_selected_resolution store s id r).1 = assocInsert store id r
        ∧ (∀ e, assocFind s.requests id = some e → e.handleCount ≠ 0 →
            (set_selected_resolution store s id r).2.2 = 1
            ∧ assocFind (set_selected_resolution store s id r).2.1.requests id
                = some { e with capture := .captureNotInitYet })
        ∧ ((∀ e, assocFind s.requests id = some e → e.handleCount = 0) →
            (set_selected_resolution store s id r).2.2 = 0
            ∧ (set_selected_resolution store s id r).2.1 = s)) := by
  have hrestart_live : ∀ e, assocFind s.requests id = some e → e.handleCount ≠ 0 →
      requestRestartCounted s id
        = ({ s with requests :=
              assocInsert s.requests id { e with capture := .captureNotInitYet } }, 1) := by
    intro e he hlive
    unfold requestRestartCounted
    rw [he]
    simp [hlive]
  have hrestart_dead : (∀ e, assocFind s.requests id = some e → e.handleCount = 0) →
      requestRestartCounted s id = (s, 0) := by
    intro hdead
    unfold requestRestartCounted
    cases he : assocFind s.requests id with
    | none => rfl
    | some e => simp [hdead e he]
  constructor
  · intro hsame
    unfold set_selected_resolution
    rw [hsame]
    simp
  · intro hdiff
    have heq : set_selected_resolution store s id r
        = (assocInsert store id r, (requestRestartCounted s id).1,
            (requestRestartCounted s id).2) := by
      unfold set_selected_resolution
      cases hf : assocFind store id with
      | none => simp
      | some r0 =>
        have hne : r0 ≠ r := fun h => hdiff (h ▸ hf)
        simp [hne]
    rw [heq]
    refine ⟨rfl, fun e he hlive => ?_, fun hdead => ?_⟩
    · rw [hrestart_live e he hlive]
      exact ⟨rfl, assocFind_insert_self _ _ _⟩
    · rw [hrestart_dead hdead]
      exact ⟨rfl, rfl⟩

/-- C7 (witness): with no stored preference, a live "cam" session: storing
(640,480) performs exactly one restart; then storing (640,480) again is a
no-op with zero restarts. -/
theorem C7_witness :
    (assocFind ([] : List (String × Resolution)) "cam" ≠ some ⟨640, 480⟩
      ∧ ((set_selected_resolution [] ⟨[], [("cam", ⟨5, 2, .capture ⟨1280, 720⟩⟩)], 6⟩ "cam" ⟨640, 480⟩).1
            = assocInsert [] "cam" ⟨640, 480⟩
        ∧ (set_selected_resolution [] ⟨[], [("cam", ⟨5, 2, .capture ⟨1280, 720⟩⟩)], 6⟩ "cam" ⟨640, 480⟩).2.2 = 1
        ∧ assocFind (set_selected_resolution [] ⟨[], [("cam", ⟨5, 2, .capture ⟨1280, 720⟩⟩)], 6⟩ "cam" ⟨640, 480⟩).2.1.requests "cam"
            = some ⟨5, 2, .captureNotInitYet⟩))
    ∧ (assocFind [("cam", (⟨640, 480⟩ : Resolution))] "cam" = some ⟨640, 480⟩
      ∧ set_selected_resolution [("cam", ⟨640, 480⟩)] ⟨[], [("cam", ⟨5, 2, .captureNotInitYet⟩)], 6⟩ "cam" ⟨640, 480⟩
          = ([("cam", ⟨640, 480⟩)], ⟨[], [("cam", ⟨5, 2, .captureNotInitYet⟩)], 6⟩, 0)) := by
  constructor
  · refine ⟨by decide, ?_⟩
    have h := (C7_set_resolution [] ⟨[], [("cam", ⟨5, 2, .capture ⟨1280, 720⟩⟩)], 6⟩ "cam" ⟨640, 480⟩).2
      (by decide)
    have h2 := h.2.1 ⟨5, 2, .capture ⟨1280, 720⟩⟩ (by decide) (by decide)
    exact ⟨h.1, h2.1, h2.2⟩
  · exact ⟨by decide,
      (C7_set_resolution [("cam", ⟨640, 480⟩)] ⟨[], [("cam", ⟨5, 2, .captureNotInitYet⟩)], 6⟩ "cam" ⟨640, 480⟩).1
        (by decide)⟩

/-! ## Lemmas about `update` (claims C4, C5) -/

theorem assocFind_update (backend : List Info)
    (oracle : DeviceId → Resolution → Except CaptureError Resolution)
    (store : List (String × Resolution)) (s : ManagerState) (id : DeviceId) :
    assocFind (update backend oracle store s).requests id
      = (assocFind s.requests id).map
          (stepRequest (grab_all_infos backend) store oracle id) := by
  unfold update
  exact assocFind_map s.requests
    (fun k v => stepRequest (grab_all_infos backend) store oracle k v) id

theorem stepRequest_handleCount (infos : List Info)
    (store : List (String × Resolution))
    (oracle : DeviceId → Resolution → Except CaptureError Resolution)
    (id : DeviceId) (e : SessionEntry) :
    (stepRequest infos store oracle id e).handleCount = e.handleCount := by
  unfold stepRequest
  split
  · rfl
  · split
    · rfl
    · split
      · rfl
      · split <;> rfl

theorem stepRequest_unplugged {infos : List Info}
    {store : List (String × Resolution)}
    {oracle : DeviceId → Resolution → Except CaptureError Resolution}
    {id : DeviceId} {e : SessionEntry}
    (hc : ¬ e.handleCount = 0) (hp : is_plugged_in infos id = false) :
    stepRequest infos store oracle id e
      = { e with capture := .captureError .webcamUnplugged } := by
  unfold stepRequest
  rw [if_neg hc, if_pos hp]

theorem stepRequest_active {infos : List Info}
    {store : List (String × Resolution)}
    {oracle : DeviceId → Resolution → Except CaptureError Resolution}
    {id : DeviceId} {e : SessionEntry} {r : Resolution}
    (hc : ¬ e.handleCount = 0) (hp : is_plugged_in infos id = true)
    (hcap : e.capture = .capture r) :
    stepRequest infos store oracle id e = e := by
  unfold stepRequest
  rw [if_neg hc, if_neg (by simp [hp]), hcap]

theorem stepRequest_open {infos : List Info}
    {store : List (String × Resolution)}
    {oracle : DeviceId → Resolution → Except CaptureError Resolution}
    {id : DeviceId} {e : SessionEntry}
    (hc : ¬ e.handleCount = 0) (hp : is_plugged_in infos id = true)
    (hnc : ∀ r, e.capture ≠ .capture r) :
    stepRequest infos store oracle id e
      = { e with capture :=
          match oracle id (selected_resolution store infos id) with
          | .ok r => .capture r
          | .error err => .captureError err } := by
  unfold stepRequest
  rw [if_neg hc, if_neg (by simp [hp])]
  cases hcap : e.capture with
  | capture r => exact absurd hcap (hnc r)
  | captureNotInitYet =>
    cases oracle id (selected_resolution store infos id) <;> rfl
  | captureError err =>
    cases oracle id (selected_resolution store infos id) <;> rfl

/-! ## Preservation of the Active-implies-plugged invariant -/

theorem inv_insert {s : ManagerState} {id0 : DeviceId} {v : SessionEntry}
    (hinv : ActiveImpliesPlugged s)
    (hv : v.handleCount ≠ 0 → ∀ r, v.capture = .capture r →
      is_plugged_in s.infos id0 = true) :
    ActiveImpliesPlugged { s with requests := assocInsert s.requests id0 v } := by
  intro id e hfind hc r hcap
  by_cases hid : id0 = id
  · subst hid
    rw [assocFind_insert_self] at hfind
    cases hfind
    exact hv hc r hcap
  · rw [assocFind_insert_ne _ _ _ _ hid] at hfind
    exact hinv id e hfind hc r hcap

theorem inv_open_or_get {s : ManagerState} (id0 : DeviceId)
    (hinv : ActiveImpliesPlugged s) :
    ActiveImpliesPlugged (open_or_get_webcam s id0).1 := by
  unfold open_or_get_webcam
  cases hfind : assocFind s.requests id0 with
  | none =>
    exact inv_insert hinv (by intro _ r h; cases h)
  | some e =>
    by_cases hc : e.handleCount ≠ 0
    · simp only [if_pos hc]
      exact inv_insert hinv (fun _ r hcap => hinv id0 e hfind hc r hcap)
    · simp only [if_neg hc]
      exact inv_insert hinv (by intro _ r h; cases h)

theorem inv_release {s : ManagerState} (id0 : DeviceId)
    (hinv : ActiveImpliesPlugged s) :
    ActiveImpliesPlugged (release_handle s id0) := by
  unfold release_handle
  cases hfind : assocFind s.requests id0 with
  | none => exact hinv
  | some e =>
    refine inv_insert hinv ?_
    intro hc r hcap
    have he : e.handleCount ≠ 0 := by
      simp only at hc
      omega
    exact hinv id0 e hfind he r hcap

theorem inv_restartCounted {s : ManagerState} (id0 : DeviceId)
    (hinv : ActiveImpliesPlugged s) :
    ActiveImpliesPlugged (requestRestartCounted s id0).1 := by
  unfold requestRestartCounted
  cases hfind : assocFind s.requests id0 with
  | none => exact hinv
  | some e =>
    by_cases hc : e.handleCount = 0
    · simp only [if_pos hc]
      exact hinv
    · simp only [if_neg hc]
      exact inv_insert hinv (by intro _ r h; cases h)

theorem inv_setRes {s : ManagerState} (store : List (String × Resolution))
    (id0 : DeviceId) (r : Resolution) (hinv : ActiveImpliesPlugged s) :
    ActiveImpliesPlugged (set_selected_resolution store s id0 r).2.1 := by
  unfold set_selected_resolution
  cases hf : assocFind store id0 with
  | none => exact inv_restartCounted id0 hinv
  | some r0 =>
    by_cases hr : r0 = r
    · simp only [if_pos hr]
      exact hinv
    · simp only [if_neg hr]
      exact inv_restartCounted id0 hinv

theorem inv_update {s : ManagerState} (backend : List Info)
    (oracle : DeviceId → Resolution → Except CaptureError Resolution)
    (store : List (String × Resolution)) (_hinv : ActiveImpliesPlugged s) :
    ActiveImpliesPlugged (update backend oracle store s) := by
  intro id e' hfind' hc' r hcap'
  rw [assocFind_update] at hfind'
  cases hfind : assocFind s.requests id with
  | none => rw [hfind] at hfind'; cases hfind'
  | some e =>
    rw [hfind] at hfind'
    simp only [Option.map_some'] at hfind'
    cases hfind'
    have hce : ¬ e.handleCount = 0 := by
      intro h0
      apply hc'
      rw [stepRequest_handleCount, h0]
    by_cases hp : is_plugged_in (grab_all_infos backend) id = false
    · rw [stepRequest_unplugged hce hp] at hcap'
      cases hcap'
    · have hp2 : is_plugged_in (grab_all_infos backend) id = true := by
        cases h : is_plugged_in (grab_all_infos backend) id
        · exact absurd h hp
        · rfl
      show is_plugged_in (grab_all_infos backend) id = true
      exact hp2

theorem inv_step {s s' : ManagerState} (hstep : ManagerStep s s')
    (hinv : ActiveImpliesPlugged s) : ActiveImpliesPlugged s' := by
  cases hstep with
  | acquire id0 => exact inv_open_or_get id0 hinv
  | release id0 => exact inv_release id0 hinv
  | restart id0 => exact inv_restartCounted id0 hinv
  | setRes store id0 r => exact inv_setRes store id0 r hinv
  | poll backend oracle store => exact inv_update backend oracle store hinv

/-- C4: (i) if a device with a live session is absent from the enumeration a
poll cycle fetches, that cycle itself sets the session state to
Failed(Unplugged); (ii) in every state reachable from a fresh manager, no
live session is `Active` while its device is absent from the latest
snapshot. -/
theorem C4_unplug_detection :
    (∀ (s : ManagerState) (backend : List Info)
        (oracle : DeviceId → Resolution → Except CaptureError Resolution)
        (store : List (String × Resolution)) (id : DeviceId) (e : SessionEntry),
      assocFind s.requests id = some e → e.handleCount ≠ 0 →
      is_plugged_in (grab_all_infos backend) id = false →
      assocFind (update backend oracle store s).requests id
        = some { e with capture := .captureError .webcamUnplugged })
    ∧ (∀ s : ManagerState, Reachable s → ActiveImpliesPlugged s) := by
  constructor
  · intro s backend oracle store id e hfind hc habs
    rw [assocFind_update, hfind]
    simp only [Option.map_some']
    rw [stepRequest_unplugged hc habs]
  · intro s hreach
    induction hreach with
    | refl =>
      intro id e hfind hc r hcap
      simp [initState, assocFind] at hfind
    | tail _h hstep ih => exact inv_step hstep ih

/-- C4 (witness): a live not-yet-initialized session for "cam" and an empty
enumeration: the poll cycle marks it Failed(Unplugged); and the state after
acquiring "cam" from a fresh manager is reachable, hence satisfies the
Active-implies-plugged invariant. -/
theorem C4_witness :
    (assocFind (⟨[], [("cam", ⟨0, 1, .captureNotInitYet⟩)], 1⟩ : ManagerState).requests "cam"
        = some ⟨0, 1, .captureNotInitYet⟩
      ∧ (⟨0, 1, .captureNotInitYet⟩ : SessionEntry).handleCount ≠ 0
      ∧ is_plugged_in (grab_all_infos []) "cam" = false
      ∧ assocFind (update [] (fun _ _ => Except.error CaptureError.webcamUnplugged) []
            ⟨[], [("cam", ⟨0, 1, .captureNotInitYet⟩)], 1⟩).requests "cam"
          = some ⟨0, 1, .captureError .webcamUnplugged⟩)
    ∧ (Reachable (open_or_get_webcam initState "cam").1
      ∧ ActiveImpliesPlugged (open_or_get_webcam initState "cam").1) := by
  constructor
  · refine ⟨by decide, by decide, by decide, ?_⟩
    exact C4_unplug_detection.1 ⟨[], [("cam", ⟨0, 1, .captureNotInitYet⟩)], 1⟩ []
      (fun _ _ => Except.error CaptureError.webcamUnplugged) [] "cam"
      ⟨0, 1, .captureNotInitYet⟩ (by decide) (by decide) (by decide)
  · have hr : Reachable (open_or_get_webcam initState "cam").1 :=
      Relation.ReflTransGen.single (ManagerStep.acquire "cam" initState)
    exact ⟨hr, C4_unplug_detection.2 _ hr⟩

/-- C5: (i) scenario — a live `Active` session whose device disappears from
one poll cycle's enumeration and reappears in the next (with the open
succeeding) transitions Active → Failed(Unplugged) → Active across those two
cycles, with no new acquire; (ii) from any non-`Active` state (NotInit or
Failed), a poll cycle that lists the device attempts the open, recording its
outcome. -/
theorem C5_replug_recovery :
    (∀ (s : ManagerState) (store : List (String × Resolution))
        (o1 o2 : DeviceId → Resolution → Except CaptureError Resolution)
        (b1 b2 : List Info) (id : DeviceId) (e : SessionEntry) (r0 r2 : Resolution),
      assocFind s.requests id = some e → e.handleCount ≠ 0 →
      e.capture = .capture r0 →
      is_plugged_in (grab_all_infos b1) id = false →
      is_plugged_in (grab_all_infos b2) id = true →
      o2 id (selected_resolution store (grab_all_infos b2) id) = .ok r2 →
      assocFind (update b1 o1 store s).requests id
          = some { e with capture := .captureError .webcamUnplugged }
        ∧ assocFind (update b2 o2 store (update b1 o1 store s)).requests id
          = some { e with capture := .capture r2 })
    ∧ (∀ (s : ManagerState) (backend : List Info)
        (oracle : DeviceId → Resolution → Except CaptureError Resolution)
        (store : List (String × Resolution)) (id : DeviceId) (e : SessionEntry),
      assocFind s.requests id = some e → e.handleCount ≠ 0 →
      is_plugged_in (grab_all_infos backend) id = true →
      (∀ r, e.capture ≠ .capture r) →
      assocFind (update backend oracle store s).requests id
        = some { e with capture :=
            match oracle id (selected_resolution store (grab_all_infos backend) id) with
            | .ok r => .capture r
            | .error err => .captureError err }) := by
  have hretry : ∀ (s : ManagerState) (backend : List Info)
      (oracle : DeviceId → Resolution → Except CaptureError Resolution)
      (store : List (String × Resolution)) (id : DeviceId) (e : SessionEntry),
      assocFind s.requests id = some e → e.handleCount ≠ 0 →
      is_plugged_in (grab_all_infos backend) id = true →
      (∀ r, e.capture ≠ .capture r) →
      assocFind (update backend oracle store s).requests id
        = some { e with capture :=
            match oracle id (selected_resolution store (grab_all_infos backend) id) with
            | .ok r => .capture r
            | .error err => .captureError err } := by
    intro s backend oracle store id e hfind hc hp hnc
    rw [assocFind_update, hfind]
    simp only [Option.map_some']
    rw [stepRequest_open hc hp hnc]
  refine ⟨?_, hretry⟩
  intro s store o1 o2 b1 b2 id e r0 r2 hfind hc hcap hb1 hb2 hok
  have h1 : assocFind (update b1 o1 store s).requests id
      = some { e with capture := .captureError .webcamUnplugged } := by
    rw [assocFind_update, hfind]
    simp only [Option.map_some']
    rw [stepRequest_unplugged hc hb1]
  refine ⟨h1, ?_⟩
  have h2 := hretry (update b1 o1 store s) b2 o2 store id
    { e with capture := .captureError .webcamUnplugged } h1 hc hb2
    (by intro r h; cases h)
  rw [hok] at h2
  exact h2

/-- C5 (witness): "cam" is Active at (640,480) with one handle; cycle 1 sees
no devices, cycle 2 sees "cam" again and the open succeeds. -/
theorem C5_witness :
    (assocFind (⟨[], [("cam", ⟨0, 1, .capture ⟨640, 480⟩⟩)], 1⟩ : ManagerState).requests "cam"
        = some ⟨0, 1, .capture ⟨640, 480⟩⟩
      ∧ (⟨0, 1, .capture ⟨640, 480⟩⟩ : SessionEntry).handleCount ≠ 0
      ∧ (⟨0, 1, .capture ⟨640, 480⟩⟩ : SessionEntry).capture = .capture ⟨640, 480⟩
      ∧ is_plugged_in (grab_all_infos []) "cam" = false
      ∧ is_plugged_in (grab_all_infos [⟨"A", "cam", [⟨640, 480⟩]⟩]) "cam" = true
      ∧ (fun (_ : DeviceId) (_ : Resolution) =>
            (Except.ok ⟨640, 480⟩ : Except CaptureError Resolution)) "cam"
          (selected_resolution [] (grab_all_infos [⟨"A", "cam", [⟨640, 480⟩]⟩]) "cam") = .ok ⟨640, 480⟩)
    ∧ (assocFind (update [] (fun _ _ => Except.error CaptureError.webcamUnplugged) []
          ⟨[], [("cam", ⟨0, 1, .capture ⟨640, 480⟩⟩)], 1⟩).requests "cam"
        = some ⟨0, 1, .captureError .webcamUnplugged⟩
      ∧ assocFind (update [⟨"A", "cam", [⟨640, 480⟩]⟩]
          (fun _ _ => Except.ok (⟨640, 480⟩ : Resolution)) []
          (update [] (fun _ _ => Except.error CaptureError.webcamUnplugged) []
            ⟨[], [("cam", ⟨0, 1, .capture ⟨640, 480⟩⟩)], 1⟩)).requests "cam"
        = some ⟨0, 1, .capture ⟨640, 480⟩⟩) :=
  ⟨⟨by decide, by decide, rfl, by decide, by decide, rfl⟩,
    C5_replug_recovery.1 ⟨[], [("cam", ⟨0, 1, .capture ⟨640, 480⟩⟩)], 1⟩ []
      (fun _ _ => Except.error CaptureError.webcamUnplugged)
      (fun _ _ => Except.ok ⟨640, 480⟩)
      [] [⟨"A", "cam", [⟨640, 480⟩]⟩] "cam" ⟨0, 1, .capture ⟨640, 480⟩⟩
      ⟨640, 480⟩ ⟨640, 480⟩
      (by decide) (by decide) rfl (by decide) (by decide) rfl⟩

/-! ## Lemmas about the enumeration backends (claims C2, C9, C10) -/

theorem grab_impl_resolutions_nonempty :
    ∀ (devs : List RawDevice) (cache cache2 : ResCache) (infos : List Info),
      grab_all_infos_impl devs cache = .ok (cache2, infos) →
      ∀ i ∈ infos, i.resolutions ≠ [] := by
  intro devs
  induction devs with
  | nil =>
    intro cache cache2 infos h i hi
    unfold grab_all_infos_impl at h
    cases h
    simp at hi
  | cons d rest ih =>
    intro cache cache2 infos h i hi
    unfold grab_all_infos_impl at h
    split at h
    · cases h
    · split at h
      · cases h
      · rename_i c2a ress heq2
        split at h
        · cases h
        · rename_i headInfos heq3
          split at h
          · cases h
          · rename_i p heq4
            simp only [Except.ok.injEq, Prod.mk.injEq] at h
            obtain ⟨hcache, hinfos⟩ := h
            subst hinfos
            rcases List.mem_append.mp hi with hh | ht
            · split at heq3
              · rename_i hemp
                simp only [Except.ok.injEq] at heq3
                subst heq3
                simp at hh
              · rename_i hemp
                split at heq3
                · rename_i idv heq5
                  simp only [Except.ok.injEq] at heq3
                  subst heq3
                  rcases List.mem_singleton.mp hh with rfl
                  intro hnil
                  rw [show ress = [] from hnil] at hemp
                  exact hemp rfl
                · cases heq3
            · exact ih _ _ _ heq4 i ht

theorem get_devices_info_resolutions_nonempty :
    ∀ (devs : List RawDevice) (cache : ResCache),
      ∀ i ∈ (get_devices_info devs cache).2, i.resolutions ≠ [] := by
  intro devs
  induction devs with
  | nil =>
    intro cache i hi
    simp [get_devices_info] at hi
  | cons d rest ih =>
    intro cache i hi
    unfold get_devices_info at hi
    split at hi
    · exact ih cache i hi
    · split at hi
      · exact ih cache i hi
      · split at hi
        · rename_i rs hfind
          split at hi
          · exact ih cache i hi
          · rename_i hemp
            rcases List.mem_cons.mp hi with rfl | ht
            · intro hnil
              rw [show rs = [] from hnil] at hemp
              exact hemp rfl
            · exact ih cache i ht
        · split at hi
          · split at hi
            · exact ih _ i hi
            · rename_i hemp
              rcases List.mem_cons.mp hi with rfl | ht
              · intro hnil
                rw [show d.hwResolutions = [] from hnil] at hemp
                exact hemp rfl
              · exact ih _ i ht
          · exact ih _ i hi

/-- C9: every `Info` either backend enumeration produces has a non-empty
resolution list — a device whose available-resolutions query comes back
empty is omitted from the snapshot entirely, in both
internal/wcam_windows.cpp (`grab_all_infos_impl`) and wcam_windows.cpp
(`get_devices_info`). -/
theorem C9_snapshot_resolutions_nonempty :
    (∀ (devs : List RawDevice) (cache cache2 : ResCache) (infos : List Info),
      grab_all_infos_impl devs cache = .ok (cache2, infos) →
      ∀ i ∈ infos, i.resolutions ≠ [])
    ∧ (∀ (devs : List RawDevice) (cache : ResCache),
      ∀ i ∈ (get_devices_info devs cache).2, i.resolutions ≠ []) :=
  ⟨grab_impl_resolutions_nonempty, get_devices_info_resolutions_nonempty⟩

/-- C9 (witness): a single healthy device named "Cam-B" reporting one
resolution, enumerated by both backends from an empty cache. -/
theorem C9_witness :
    (grab_all_infos_impl [⟨true, true, "Cam-B", false, "", true, [⟨640, 480⟩]⟩] []
        = .ok ([("Cam-B", [⟨640, 480⟩])], [⟨"Cam-B", "Cam-B", [⟨640, 480⟩]⟩])
      ∧ (⟨"Cam-B", "Cam-B", [⟨640, 480⟩]⟩ : Info)
          ∈ [(⟨"Cam-B", "Cam-B", [⟨640, 480⟩]⟩ : Info)]
      ∧ (⟨"Cam-B", "Cam-B", [⟨640, 480⟩]⟩ : Info).resolutions ≠ [])
    ∧ ((⟨"Cam-B", "Cam-B", [⟨640, 480⟩]⟩ : Info)
          ∈ (get_devices_info [⟨true, true, "Cam-B", false, "", true, [⟨640, 480⟩]⟩] []).2
      ∧ (⟨"Cam-B", "Cam-B", [⟨640, 480⟩]⟩ : Info).resolutions ≠ []) :=
  ⟨⟨rfl, by decide,
      C9_snapshot_resolutions_nonempty.1
        [⟨true, true, "Cam-B", false, "", true, [⟨640, 480⟩]⟩] []
        [("Cam-B", [⟨640, 480⟩])] [⟨"Cam-B", "Cam-B", [⟨640, 480⟩]⟩]
        rfl ⟨"Cam-B", "Cam-B", [⟨640, 480⟩]⟩ (by decide)⟩,
    ⟨by decide,
      C9_snapshot_resolutions_nonempty.2
        [⟨true, true, "Cam-B", false, "", true, [⟨640, 480⟩]⟩] []
        ⟨"Cam-B", "Cam-B", [⟨640, 480⟩]⟩ (by decide)⟩⟩

/-- C2: the claim is what the spec (and the sibling backend
wcam_windows.cpp) intends, but internal/wcam_windows.cpp violates it: when
`IMoniker::BindToStorage` fails for one device ("Cam-A"), `find_webcam_name`
throws a `std::runtime_error`; nothing in `grab_all_infos_impl`,
`Manager::update` or `Manager::thread_job` catches it (the only catch is for
`CaptureException` around the `Capture` constructor), so the whole
enumeration aborts — the healthy device "Cam-B" is not discovered, its live
session is not serviced, and the poll loop terminates.  The sibling
implementation (`get_devices_info`) skips the failing device and still
reports "Cam-B". -/
theorem C2_enumeration_exception_escapes_update :
    grab_all_infos_impl
        [⟨false, true, "Cam-A", false, "", true, [⟨640, 480⟩]⟩,
          ⟨true, true, "Cam-B", false, "", true, [⟨640, 480⟩]⟩] []
      = .error "BindToStorage failed"
    ∧ updateE
        [⟨false, true, "Cam-A", false, "", true, [⟨640, 480⟩]⟩,
          ⟨true, true, "Cam-B", false, "", true, [⟨640, 480⟩]⟩] []
        (fun _ _ => Except.ok ⟨640, 480⟩) []
        ⟨[], [("Cam-B", ⟨0, 1, .captureNotInitYet⟩)], 1⟩
      = .error "BindToStorage failed"
    ∧ (get_devices_info
        [⟨false, true, "Cam-A", false, "", true, [⟨640, 480⟩]⟩,
          ⟨true, true, "Cam-B", false, "", true, [⟨640, 480⟩]⟩] []).2
      = [⟨"Cam-B", "Cam-B", [⟨640, 480⟩]⟩] :=
  ⟨rfl, rfl, rfl⟩

theorem grab_impl_cache_stable :
    ∀ (devs : List RawDevice) (cache cache2 : ResCache) (infos : List Info)
      (nm : String) (rs : List Resolution),
      grab_all_infos_impl devs cache = .ok (cache2, infos) →
      assocFind cache nm = some rs → assocFind cache2 nm = some rs := by
  intro devs
  induction devs with
  | nil =>
    intro cache cache2 infos nm rs h hfind
    unfold grab_all_infos_impl at h
    cases h
    exact hfind
  | cons d rest ih =>
    intro cache cache2 infos nm rs h hfind
    unfold grab_all_infos_impl at h
    split at h
    · cases h
    · rename_i nmd hname
      split at h
      · cases h
      · rename_i c2a ress heq2
        split at h
        · cases h
        · rename_i headInfos heq3
          split at h
          · cases h
          · rename_i c3 tailInfos heq4
            simp only [Except.ok.injEq, Prod.mk.injEq] at h
            obtain ⟨hcache, hinfos⟩ := h
            subst hcache
            have hmid : assocFind c2a nm = some rs := by
              split at heq2
              · rename_i rs0 hhit
                simp only [Except.ok.injEq, Prod.mk.injEq] at heq2
                obtain ⟨hc, hr⟩ := heq2
                subst hc
                exact hfind
              · rename_i hmiss
                split at heq2
                · simp only [Except.ok.injEq, Prod.mk.injEq] at heq2
                  obtain ⟨hc, hr⟩ := heq2
                  subst hc
                  have hne : nmd ≠ nm := by
                    intro he
                    rw [he, hfind] at hmiss
                    cases hmiss
                  rw [assocFind_insert_ne _ _ _ _ hne]
                  exact hfind
                · cases heq2
            exact ih _ _ _ nm rs heq4 hmid

theorem grab_impl_cache_hit_reported :
    ∀ (devs : List RawDevice) (cache cache2 : ResCache) (infos : List Info)
      (nm : String) (rs : List Resolution),
      grab_all_infos_impl devs cache = .ok (cache2, infos) →
      assocFind cache nm = some rs →
      ∀ i ∈ infos, i.name = nm → i.resolutions = rs := by
  intro devs
  induction devs with
  | nil =>
    intro cache cache2 infos nm rs h hfind i hi
    unfold grab_all_infos_impl at h
    cases h
    simp at hi
  | cons d rest ih =>
    intro cache cache2 infos nm rs h hfind i hi hnm
    unfold grab_all_infos_impl at h
    split at h
    · cases h
    · rename_i nmd hname
      split at h
      · cases h
      · rename_i c2a ress heq2
        split at h
        · cases h
        · rename_i headInfos heq3
          split at h
          · cases h
          · rename_i c3 tailInfos heq4
            simp only [Except.ok.injEq, Prod.mk.injEq] at h
            obtain ⟨hcache, hinfos⟩ := h
            subst hinfos
            have hmid : assocFind c2a nm = some rs := by
              split at heq2
              · rename_i rs0 hhit
                simp only [Except.ok.injEq, Prod.mk.injEq] at heq2
                obtain ⟨hc, hr⟩ := heq2
                subst hc
                exact hfind
              · rename_i hmiss
                split at heq2
                · simp only [Except.ok.injEq, Prod.mk.injEq] at heq2
                  obtain ⟨hc, hr⟩ := heq2
                  subst hc
                  have hne : nmd ≠ nm := by
                    intro he
                    rw [he, hfind] at hmiss
                    cases hmiss
                  rw [assocFind_insert_ne _ _ _ _ hne]
                  exact hfind
                · cases heq2
            rcases List.mem_append.mp hi with hh | ht
            · -- `i` comes from this device: its resolutions are `ress`,
              -- which the cache analysis forces to equal `rs` when names match
              have hival : i.name = nmd ∧ i.resolutions = ress := by
                split at heq3
                · simp only [Except.ok.injEq] at heq3
                  subst heq3
                  simp at hh
                · split at heq3
                  · rename_i idv heq5
                    simp only [Except.ok.injEq] at heq3
                    subst heq3
                    rcases List.mem_singleton.mp hh with rfl
                    exact ⟨rfl, rfl⟩
                  · cases heq3
              have hnmd : nmd = nm := by rw [← hival.1, hnm]
              subst hnmd
              split at heq2
              · rename_i rs0 hhit
                simp only [Except.ok.injEq, Prod.mk.injEq] at heq2
                obtain ⟨hc, hr⟩ := heq2
                rw [hfind] at hhit
                cases hhit
                rw [hival.2, ← hr]
              · rename_i hmiss
                rw [hfind] at hmiss
                cases hmiss
            · exact ih _ _ _ nm rs heq4 hmid i ht hnm

theorem grab_impl_seeds_cache :
    ∀ (devs : List RawDevice) (cache cache2 : ResCache) (infos : List Info),
      grab_all_infos_impl devs cache = .ok (cache2, infos) →
      ∀ i ∈ infos, assocFind cache2 i.name = some i.resolutions := by
  intro devs
  induction devs with
  | nil =>
    intro cache cache2 infos h i hi
    unfold grab_all_infos_impl at h
    cases h
    simp at hi
  | cons d rest ih =>
    intro cache cache2 infos h i hi
    unfold grab_all_infos_impl at h
    split at h
    · cases h
    · rename_i nmd hname
      split at h
      · cases h
      · rename_i c2a ress heq2
        split at h
        · cases h
        · rename_i headInfos heq3
          split at h
          · cases h
          · rename_i c3 tailInfos heq4
            simp only [Except.ok.injEq, Prod.mk.injEq] at h
            obtain ⟨hcache, hinfos⟩ := h
            subst hcache
            subst hinfos
            rcases List.mem_append.mp hi with hh | ht
            · have hmid : assocFind c2a nmd = some ress := by
                split at heq2
                · rename_i rs0 hhit
                  simp only [Except.ok.injEq, Prod.mk.injEq] at heq2
                  obtain ⟨hc, hr⟩ := heq2
                  subst hc
                  rw [hhit, hr]
                · rename_i hmiss
                  split at heq2
                  · simp only [Except.ok.injEq, Prod.mk.injEq] at heq2
                    obtain ⟨hc, hr⟩ := heq2
                    subst hc
                    rw [assocFind_insert_self, hr]
                  · cases heq2
              have hfinal : assocFind c3 nmd = some ress :=
                grab_impl_cache_stable rest c2a c3 tailInfos nmd ress heq4 hmid
              split at heq3
              · simp only [Except.ok.injEq] at heq3
                subst heq3
                simp at hh
              · split at heq3
                · rename_i idv heq5
                  simp only [Except.ok.injEq] at heq3
                  subst heq3
                  rcases List.mem_singleton.mp hh with rfl
                  exact hfinal
                · cases heq3
            · exact ih _ _ _ heq4 i ht

theorem get_devices_cache_stable :
    ∀ (devs : List RawDevice) (cache c2 : ResCache) (out : List Info)
      (nm : String) (rs : List Resolution),
      get_devices_info devs cache = (c2, out) →
      assocFind cache nm = some rs → assocFind c2 nm = some rs := by
  intro devs
  induction devs with
  | nil =>
    intro cache c2 out nm rs h hfind
    unfold get_devices_info at h
    cases h
    exact hfind
  | cons d rest ih =>
    intro cache c2 out nm rs h hfind
    unfold get_devices_info at h
    split at h
    · exact ih cache c2 out nm rs h hfind
    · split at h
      · exact ih cache c2 out nm rs h hfind
      · split at h
        · rename_i rs0 hhit
          split at h
          · exact ih cache c2 out nm rs h hfind
          · simp only [Prod.mk.injEq] at h
            obtain ⟨h1, h2⟩ := h
            subst h1
            exact ih cache _ _ nm rs rfl hfind
        · rename_i hmiss
          have hne : d.name ≠ nm := by
            intro he
            rw [he, hfind] at hmiss
            cases hmiss
          have hfind2 : ∀ X, assocFind (assocInsert cache d.name X) nm = some rs := by
            intro X
            rw [assocFind_insert_ne _ _ _ _ hne]
            exact hfind
          split at h
          · split at h
            · exact ih _ c2 out nm rs h (hfind2 _)
            · simp only [Prod.mk.injEq] at h
              obtain ⟨h1, h2⟩ := h
              subst h1
              exact ih _ _ _ nm rs rfl (hfind2 _)
          · exact ih _ c2 out nm rs h (hfind2 _)

theorem get_devices_cache_hit_reported :
    ∀ (devs : List RawDevice) (cache c2 : ResCache) (out : List Info)
      (nm : String) (rs : List Resolution),
      get_devices_info devs cache = (c2, out) →
      assocFind cache nm = some rs →
      ∀ i ∈ out, i.name = nm → i.resolutions = rs := by
  intro devs
  induction devs with
  | nil =>
    intro cache c2 out nm rs h hfind i hi
    unfold get_devices_info at h
    cases h
    simp at hi
  | cons d rest ih =>
    intro cache c2 out nm rs h hfind i hi hnm
    unfold get_devices_info at h
    split at h
    · exact ih cache c2 out nm rs h hfind i hi hnm
    · split at h
      · exact ih cache c2 out nm rs h hfind i hi hnm
      · split at h
        · rename_i rs0 hhit
          split at h
          · exact ih cache c2 out nm rs h hfind i hi hnm
          · simp only [Prod.mk.injEq] at h
            obtain ⟨h1, h2⟩ := h
            subst h1
            subst h2
            rcases List.mem_cons.mp hi with rfl | ht
            · have hdn : d.name = nm := hnm
              rw [hdn, hfind] at hhit
              cases hhit
              rfl
            · exact ih cache _ _ nm rs rfl hfind i ht hnm
        · rename_i hmiss
          have hne : d.name ≠ nm := by
            intro he
            rw [he, hfind] at hmiss
            cases hmiss
          have hfind2 : ∀ X, assocFind (assocInsert cache d.name X) nm = some rs := by
            intro X
            rw [assocFind_insert_ne _ _ _ _ hne]
            exact hfind
          split at h
          · split at h
            · exact ih _ c2 out nm rs h (hfind2 _) i hi hnm
            · simp only [Prod.mk.injEq] at h
              obtain ⟨h1, h2⟩ := h
              subst h1
              subst h2
              rcases List.mem_cons.mp hi with rfl | ht
              · exact absurd hnm hne
              · exact ih _ _ _ nm rs rfl (hfind2 _) i ht hnm
          · exact ih _ c2 out nm rs h (hfind2 _) i hi hnm

theorem get_devices_seeds_cache :
    ∀ (devs : List RawDevice) (cache c2 : ResCache) (out : List Info),
      get_devices_info devs cache = (c2, out) →
      ∀ i ∈ out, assocFind c2 i.name = some i.resolutions := by
  intro devs
  induction devs with
  | nil =>
    intro cache c2 out h i hi
    unfold get_devices_info at h
    cases h
    simp at hi
  | cons d rest ih =>
    intro cache c2 out h i hi
    unfold get_devices_info at h
    split at h
    · exact ih cache c2 out h i hi
    · split at h
      · exact ih cache c2 out h i hi
      · split at h
        · rename_i rs0 hhit
          split at h
          · exact ih cache c2 out h i hi
          · simp only [Prod.mk.injEq] at h
            obtain ⟨h1, h2⟩ := h
            subst h1
            subst h2
            rcases List.mem_cons.mp hi with rfl | ht
            · exact get_devices_cache_stable rest cache _ _ d.name rs0 rfl hhit
            · exact ih cache _ _ rfl i ht
        · rename_i hmiss
          split at h
          · split at h
            · exact ih _ c2 out h i hi
            · simp only [Prod.mk.injEq] at h
              obtain ⟨h1, h2⟩ := h
              subst h1
              subst h2
              rcases List.mem_cons.mp hi with rfl | ht
              · exact get_devices_cache_stable rest _ _ _ d.name d.hwResolutions rfl
                  (assocFind_insert_self _ _ _)
              · exact ih _ _ _ rfl i ht
          · exact ih _ c2 out h i hi

/-- C10: in both backends the per-name resolution cache makes enumeration
results for a name permanent within the polling thread: after any cycle,
every reported device's resolutions are exactly what its name maps to in the
cache (seed); cache entries survive any later cycle unchanged (stability);
and any device reported in a later cycle under the same name gets the
earlier cycle's list, regardless of what the hardware now reports —
so the second and all subsequent cycles repeat the first cycle's list. -/
theorem C10_resolution_cache_permanence :
    (∀ (devs1 devs2 : List RawDevice) (c0 c1 c2 : ResCache) (out1 out2 : List Info),
      grab_all_infos_impl devs1 c0 = .ok (c1, out1) →
      grab_all_infos_impl devs2 c1 = .ok (c2, out2) →
      (∀ i1 ∈ out1, assocFind c1 i1.name = some i1.resolutions)
      ∧ (∀ nm rs, assocFind c1 nm = some rs → assocFind c2 nm = some rs)
      ∧ ∀ i1 ∈ out1, ∀ i2 ∈ out2, i2.name = i1.name →
          i2.resolutions = i1.resolutions)
    ∧ (∀ (devs1 devs2 : List RawDevice) (c0 c1 c2 : ResCache) (out1 out2 : List Info),
      get_devices_info devs1 c0 = (c1, out1) →
      get_devices_info devs2 c1 = (c2, out2) →
      (∀ i1 ∈ out1, assocFind c1 i1.name = some i1.resolutions)
      ∧ (∀ nm rs, assocFind c1 nm = some rs → assocFind c2 nm = some rs)
      ∧ ∀ i1 ∈ out1, ∀ i2 ∈ out2, i2.name = i1.name →
          i2.resolutions = i1.resolutions) := by
  constructor
  · intro devs1 devs2 c0 c1 c2 out1 out2 h1 h2
    refine ⟨grab_impl_seeds_cache devs1 c0 c1 out1 h1,
      fun nm rs h => grab_impl_cache_stable devs2 c1 c2 out2 nm rs h2 h, ?_⟩
    intro i1 hi1 i2 hi2 hnm
    exact grab_impl_cache_hit_reported devs2 c1 c2 out2 i1.name i1.resolutions h2
      (grab_impl_seeds_cache devs1 c0 c1 out1 h1 i1 hi1) i2 hi2 hnm
  · intro devs1 devs2 c0 c1 c2 out1 out2 h1 h2
    refine ⟨get_devices_seeds_cache devs1 c0 c1 out1 h1,
      fun nm rs h => get_devices_cache_stable devs2 c1 c2 out2 nm rs h2 h, ?_⟩
    intro i1 hi1 i2 hi2 hnm
    exact get_devices_cache_hit_reported devs2 c1 c2 out2 i1.name i1.resolutions h2
      (get_devices_seeds_cache devs1 c0 c1 out1 h1 i1 hi1) i2 hi2 hnm

/-- C10 (witness): "Cam" reports (640,480) on cycle 1; on cycle 2 the
hardware would report (1,1), yet both backends still report (640,480) from
the cache. -/
theorem C10_witness :
    (grab_all_infos_impl [⟨true, true, "Cam", false, "", true, [⟨640, 480⟩]⟩] []
        = .ok ([("Cam", [⟨640, 480⟩])], [⟨"Cam", "Cam", [⟨640, 480⟩]⟩])
      ∧ grab_all_infos_impl [⟨true, true, "Cam", false, "", true, [⟨1, 1⟩]⟩]
          [("Cam", [⟨640, 480⟩])]
        = .ok ([("Cam", [⟨640, 480⟩])], [⟨"Cam", "Cam", [⟨640, 480⟩]⟩])
      ∧ get_devices_info [⟨true, true, "Cam", false, "", true, [⟨640, 480⟩]⟩] []
        = ([("Cam", [⟨640, 480⟩])], [⟨"Cam", "Cam", [⟨640, 480⟩]⟩])
      ∧ get_devices_info [⟨true, true, "Cam", false, "", true, [⟨1, 1⟩]⟩]
          [("Cam", [⟨640, 480⟩])]
        = ([("Cam", [⟨640, 480⟩])], [⟨"Cam", "Cam", [⟨640, 480⟩]⟩]))
    ∧ (∀ i1 ∈ [(⟨"Cam", "Cam", [⟨640, 480⟩]⟩ : Info)],
        ∀ i2 ∈ [(⟨"Cam", "Cam", [⟨640, 480⟩]⟩ : Info)], i2.name = i1.name →
          i2.resolutions = i1.resolutions)
    ∧ (∀ i1 ∈ [(⟨"Cam", "Cam", [⟨640, 480⟩]⟩ : Info)],
        assocFind [("Cam", [⟨640, 480⟩])] i1.name = some i1.resolutions) :=
  ⟨⟨rfl, rfl, rfl, rfl⟩,
    (C10_resolution_cache_permanence.1
      [⟨true, true, "Cam", false, "", true, [⟨640, 480⟩]⟩]
      [⟨true, true, "Cam", false, "", true, [⟨1, 1⟩]⟩]
      [] [("Cam", [⟨640, 480⟩])] [("Cam", [⟨640, 480⟩])]
      [⟨"Cam", "Cam", [⟨640, 480⟩]⟩] [⟨"Cam", "Cam", [⟨640, 480⟩]⟩]
      rfl rfl).2.2,
    (C10_resolution_cache_permanence.2
      [⟨true, true, "Cam", false, "", true, [⟨640, 480⟩]⟩]
      [⟨true, true, "Cam", false, "", true, [⟨1, 1⟩]⟩]
      [] [("Cam", [⟨640, 480⟩])] [("Cam", [⟨640, 480⟩])]
      [⟨"Cam", "Cam", [⟨640, 480⟩]⟩] [⟨"Cam", "Cam", [⟨640, 480⟩]⟩]
      rfl rfl).1⟩

end Wcam
